import Mathlib

set_option maxHeartbeats 1000000

/-! Shallow embedding of the convergence-waiter related code of the
terraform-provider-aws sources: the RDS cluster endpoint state refresh and
wait configurations, the EFS status refresh functions, the CloudWatch Events
event bus and EC2 route table association delete paths, the route table
association importer, and the Lake Formation permission filters.

Go pointers are modelled as `Option`, Go slices as `List` (a nil slice and an
empty slice both behave as `[]` for length and iteration, so a slice that is
only read is a plain `List`; a slice whose nil-ness is tested is an
`Option List`). Go `time.Duration` is a `Nat` count of nanoseconds. -/

/-- Go AWS SDK error value: an awserr with a code and a message. -/
structure ApiError where
  code : String
  message : String
deriving Repr, DecidableEq

/-- Go aws.StringValue: dereference a string pointer, nil reads as the empty string. -/
def awsStringValue : Option String → String
  | none => ""
  | some s => s

/-- Prefix test on character lists, used to model Go strings.Contains. -/
def charListStartsWith : List Char → List Char → Bool
  | [], _ => true
  | _ :: _, [] => false
  | a :: as, b :: bs => a == b && charListStartsWith as bs

/-- Substring scan on character lists: does the pattern occur in the text. -/
def charListHasSub (pat : List Char) : List Char → Bool
  | [] => charListStartsWith pat []
  | c :: cs => charListStartsWith pat (c :: cs) || charListHasSub pat cs

/-- Go strings.Contains. -/
def goStringsContains (s substr : String) : Bool :=
  charListHasSub substr.data s.data

/-- Go tfawserr.ErrMessageContains: the error is an awserr whose code equals
the given code and whose message contains the given message. -/
def tfawserrErrMessageContains (err : Option ApiError) (code message : String) : Bool :=
  match err with
  | none => false
  | some e => e.code == code && goStringsContains e.message message

/-- Go tfawserr.ErrCodeEquals: the error is an awserr whose code equals the given code. -/
def tfawserrErrCodeEquals (err : Option ApiError) (code : String) : Bool :=
  match err with
  | none => false
  | some e => e.code == code

/-- Go time.Second in nanoseconds. -/
def timeSecond : Nat := 1000000000

/-- Go time.Minute in nanoseconds. -/
def timeMinute : Nat := 60 * timeSecond

/-- Constant from rds/cluster_endpoint.go: 30 minutes. -/
def AWSRDSClusterEndpointCreateTimeout : Nat := 30 * timeMinute

/-- Constant from rds/cluster_endpoint.go: 5 seconds. -/
def AWSRDSClusterEndpointRetryDelay : Nat := 5 * timeSecond

/-- Constant from rds/cluster_endpoint.go: 3 seconds. -/
def AWSRDSClusterEndpointRetryMinTimeout : Nat := 3 * timeSecond

/-- The AWS SDK error code rds.ErrCodeDBClusterNotFoundFault. -/
def errCodeDBClusterNotFoundFault : String := "DBClusterNotFoundFault"

/-- An rds.DBClusterEndpoint as far as the refresh function reads it:
its Status field (the Go code dereferences the Status pointer unconditionally,
so it is modelled as a plain string). -/
structure DBClusterEndpoint where
  status : String
deriving Repr, DecidableEq

/-- rds.DescribeDBClusterEndpointsOutput: the endpoint slice may be nil. -/
structure DescribeDBClusterEndpointsOutput where
  dbClusterEndpoints : Option (List DBClusterEndpoint)
deriving Repr, DecidableEq

/-- The observable result of one DescribeDBClusterEndpoints call:
the response pointer and the error, both possibly nil. -/
structure DescribeDBClusterEndpointsResult where
  resp : Option DescribeDBClusterEndpointsOutput
  err : Option ApiError
deriving Repr, DecidableEq

/-- The snapshot returned by the RDS refresh closure: either the fresh
emptyResp value or a cluster endpoint from the response. -/
inductive RdsRefreshSnapshot where
  | emptyResp
  | endpoint (e : DBClusterEndpoint)
deriving Repr, DecidableEq

/-- The error built by the refresh closure with fmt.Errorf, wrapping the
original API error. -/
inductive RdsRefreshError where
  | onRefresh (original : ApiError)
deriving Repr, DecidableEq

/-- The Go condition resp != nil && len(resp.DBClusterEndpoints) == 0
(a nil slice also has length 0). -/
def respNonNilWithNoEndpoints : Option DescribeDBClusterEndpointsOutput → Bool
  | none => false
  | some r =>
    match r.dbClusterEndpoints with
    | none => true
    | some [] => true
    | some (_ :: _) => false

/-- DBClusterEndpointStateRefreshFunc from rds/cluster_endpoint.go, as a pure
function of the result of the DescribeDBClusterEndpoints call it performs. -/
def DBClusterEndpointStateRefreshFunc (call : DescribeDBClusterEndpointsResult) :
    RdsRefreshSnapshot × String × Option RdsRefreshError :=
  match call.err with
  | some e =>
    if tfawserrErrMessageContains (some e) errCodeDBClusterNotFoundFault "" then
      (.emptyResp, "destroyed", none)
    else if respNonNilWithNoEndpoints call.resp then
      (.emptyResp, "destroyed", none)
    else
      (.emptyResp, "", some (.onRefresh e))
  | none =>
    match call.resp with
    | none => (.emptyResp, "destroyed", none)
    | some r =>
      match r.dbClusterEndpoints with
      | none => (.emptyResp, "destroyed", none)
      | some [] => (.emptyResp, "destroyed", none)
      | some (e0 :: _) => (.endpoint e0, e0.status, none)

/-- The fields of resource.StateChangeConf that the RDS cluster endpoint code
sets (the refresh function is passed separately in this embedding). -/
structure StateChangeConf where
  Pending : List String
  Target : List String
  Timeout : Nat
  Delay : Nat
  MinTimeout : Nat
deriving Repr, DecidableEq

/-- The StateChangeConf built by resourceAwsRDSClusterEndpointWaitForDestroy
for a given timeout argument. -/
def resourceAwsRDSClusterEndpointWaitForDestroyConf (timeout : Nat) : StateChangeConf :=
  { Pending := ["available", "deleting"]
    Target := ["destroyed"]
    Timeout := timeout
    Delay := AWSRDSClusterEndpointRetryDelay
    MinTimeout := AWSRDSClusterEndpointRetryMinTimeout }

/-- The StateChangeConf built by resourceAwsRDSClusterEndpointWaitForAvailable
for a given timeout argument. -/
def resourceAwsRDSClusterEndpointWaitForAvailableConf (timeout : Nat) : StateChangeConf :=
  { Pending := ["creating"]
    Target := ["available"]
    Timeout := timeout
    Delay := AWSRDSClusterEndpointRetryDelay
    MinTimeout := AWSRDSClusterEndpointRetryMinTimeout }

/-- The wait configuration used on the create path, which passes
AWSRDSClusterEndpointCreateTimeout to resourceAwsRDSClusterEndpointWaitForAvailable. -/
def resourceAwsRDSClusterEndpointCreateWaitConf : StateChangeConf :=
  resourceAwsRDSClusterEndpointWaitForAvailableConf AWSRDSClusterEndpointCreateTimeout

/-- Absence of the endpoint as described by the claim: the Describe call
returned a DBClusterNotFoundFault error, or returned a response whose endpoint
list is empty or nil. -/
def endpointAbsent (call : DescribeDBClusterEndpointsResult) : Bool :=
  (match call.err with
   | some e => e.code == errCodeDBClusterNotFoundFault
   | none => false)
  || respNonNilWithNoEndpoints call.resp

/-- The condition under which the refresh closure reaches its error branch:
a non-nil call error whose code is not DBClusterNotFoundFault, with no
non-nil response carrying an empty endpoint list. -/
def rdsRefreshErrorCondition (call : DescribeDBClusterEndpointsResult) : Bool :=
  match call.err with
  | none => false
  | some e =>
    !(e.code == errCodeDBClusterNotFoundFault) && !(respNonNilWithNoEndpoints call.resp)

/-- RefreshResult from the spec data model, section 3: an opaque entity
snapshot, the current state label, and an error-or-nil. -/
structure RefreshResult (α : Type) where
  snapshot : Option α
  state : String
  err : Option String

/-- WaitSpec from the spec data model, section 3: pending, target and failure
state labels plus timing parameters (nanoseconds). -/
structure WaitSpec where
  pending : List String
  target : List String
  failure : List String
  delay : Nat
  minTimeout : Nat
  timeout : Nat

/-- View of a StateChangeConf built in the code as a spec WaitSpec; the code
declares no failure states, so the failure set is empty. -/
def StateChangeConf.toWaitSpec (c : StateChangeConf) : WaitSpec :=
  { pending := c.Pending
    target := c.Target
    failure := []
    delay := c.Delay
    minTimeout := c.MinTimeout
    timeout := c.Timeout }

/-- Outcome of a convergence wait, per spec section 4.1. -/
inductive WaitOutcome (α : Type) where
  | success (snapshot : Option α)
  | failed (state : String) (snapshot : Option α)
  | remoteError (msg : String)
  | timedOut

/-- Modelled from the spec: the poll loop of the Convergence Waiter of
section 4.1, whose implementation lives in the terraform-plugin-sdk and is
not among the sources. The refresh callback is modelled as the sequence of
results of its successive invocations. The loop invokes refresh immediately,
returns success on a target label, a terminal failure on a failure label,
aborts on a refresh error, and otherwise sleeps the current backoff interval
(starting at Delay and floored at MinTimeout) and retries until the cumulative
sleep would reach the timeout. The second component of the result is the
total time slept. Fuel bounds the recursion; one unit per nanosecond of the
timeout budget is always sufficient. -/
def waitLoop {α : Type} (refresh : Nat → RefreshResult α) (spec : WaitSpec) :
    Nat → Nat → Nat → WaitOutcome α × Nat
  | 0, _, slept => (.timedOut, slept)
  | fuel + 1, i, slept =>
    let r := refresh i
    match r.err with
    | some e => (.remoteError e, slept)
    | none =>
      if spec.target.contains r.state then (.success r.snapshot, slept)
      else if spec.failure.contains r.state then (.failed r.state r.snapshot, slept)
      else
        let interval := max spec.delay spec.minTimeout
        if spec.timeout ≤ slept + interval then (.timedOut, slept)
        else waitLoop refresh spec fuel (i + 1) (slept + interval)

/-- Modelled from the spec: Wait(refresh, spec) of section 4.1, entered with
no time slept yet and enough fuel for the whole timeout budget. -/
def Wait {α : Type} (refresh : Nat → RefreshResult α) (spec : WaitSpec) :
    WaitOutcome α × Nat :=
  waitLoop refresh spec (spec.timeout + 1) 0 0

/-- An efs.AccessPoint as far as the status function reads it. -/
structure AccessPoint where
  lifeCycleState : Option String
deriving Repr, DecidableEq

/-- efs.DescribeAccessPointsOutput: a possibly-nil slice of possibly-nil
access point pointers. -/
structure DescribeAccessPointsOutput where
  accessPoints : Option (List (Option AccessPoint))
deriving Repr, DecidableEq

/-- The observable result of one DescribeAccessPoints call. -/
structure DescribeAccessPointsResult where
  output : Option DescribeAccessPointsOutput
  err : Option ApiError
deriving Repr, DecidableEq

/-- statusAccessPointLifeCycleState from the EFS status file, as a pure
function of the result of the DescribeAccessPoints call it performs. -/
def statusAccessPointLifeCycleState (call : DescribeAccessPointsResult) :
    Option AccessPoint × String × Option ApiError :=
  match call.err with
  | some e => (none, "", some e)
  | none =>
    match call.output with
    | none => (none, "", none)
    | some output =>
      match output.accessPoints with
      | none => (none, "", none)
      | some [] => (none, "", none)
      | some (none :: _) => (none, "", none)
      | some (some mt :: _) => (some mt, awsStringValue mt.lifeCycleState, none)

/-- An efs.FileSystemDescription as far as the status function reads it. -/
structure FileSystem where
  lifeCycleState : Option String
deriving Repr, DecidableEq

/-- efs.DescribeFileSystemsOutput: a possibly-nil slice of possibly-nil
file system pointers. -/
structure DescribeFileSystemsOutput where
  fileSystems : Option (List (Option FileSystem))
deriving Repr, DecidableEq

/-- The observable result of one DescribeFileSystems call. -/
structure DescribeFileSystemsResult where
  output : Option DescribeFileSystemsOutput
  err : Option ApiError
deriving Repr, DecidableEq

/-- statusFileSystemLifeCycleState from the EFS status file, as a pure
function of the result of the DescribeFileSystems call it performs. -/
def statusFileSystemLifeCycleState (call : DescribeFileSystemsResult) :
    Option FileSystem × String × Option ApiError :=
  match call.err with
  | some e => (none, "", some e)
  | none =>
    match call.output with
    | none => (none, "", none)
    | some output =>
      match output.fileSystems with
      | none => (none, "", none)
      | some [] => (none, "", none)
      | some (none :: _) => (none, "", none)
      | some (some mt :: _) => (some mt, awsStringValue mt.lifeCycleState, none)

/-- efs.BackupPolicy as far as the status function reads it. -/
structure BackupPolicy where
  status : Option String
deriving Repr, DecidableEq

/-- The error returned by findBackupPolicyByID: either a tfresource not-found
error or an API error. findBackupPolicyByID itself is not among the sources;
its result (a policy on success, an error otherwise) is the input here. -/
inductive FindError where
  | notFound
  | api (e : ApiError)
deriving Repr, DecidableEq

/-- Go tfresource.NotFound predicate on the lookup error. -/
def tfresourceNotFound : Option FindError → Bool
  | some .notFound => true
  | _ => false

/-- statusBackupPolicy from the EFS status file, as a pure function of the
result of the findBackupPolicyByID lookup it performs. -/
def statusBackupPolicy (res : Except FindError BackupPolicy) :
    Option BackupPolicy × String × Option FindError :=
  match res with
  | .error e =>
    if tfresourceNotFound (some e) then (none, "", none)
    else (none, "", some e)
  | .ok output => (some output, awsStringValue output.status, none)

/-- The AWS SDK error code events.ErrCodeResourceNotFoundException. -/
def errCodeResourceNotFoundException : String := "ResourceNotFoundException"

/-- The EC2 error code for a missing route table association. -/
def errCodeInvalidAssociationIDNotFound : String := "InvalidAssociationID.NotFound"

/-- A wrapped error as returned from the delete handlers: fmt.Errorf output
carrying the original API error, or a wrapped wait error. -/
inductive GoError where
  | wrapped (context : String) (e : ApiError)
  | waitWrapped (context : String) (msg : String)
deriving Repr, DecidableEq

/-- resourceAwsCloudWatchEventBusDelete from cloudwatchevents/bus.go, as a
pure function of the error of the DeleteEventBus call it performs. -/
def resourceAwsCloudWatchEventBusDelete (deleteErr : Option ApiError) : Option GoError :=
  if tfawserrErrMessageContains deleteErr errCodeResourceNotFoundException "" then none
  else
    match deleteErr with
    | some e => some (.wrapped "Error deleting CloudWatch Events event bus" e)
    | none => none

/-- ec2RouteTableAssociationDelete from ec2/table_association.go, as a pure
function of the error of the DisassociateRouteTable call and of the error of
the waitRouteTableAssociationDeleted wait it performs afterwards. -/
def ec2RouteTableAssociationDelete (disassociateErr : Option ApiError)
    (waitDeletedErr : Option String) : Option GoError :=
  if tfawserrErrCodeEquals disassociateErr errCodeInvalidAssociationIDNotFound then none
  else
    match disassociateErr with
    | some e => some (.wrapped "error deleting Route Table Association" e)
    | none =>
      match waitDeletedErr with
      | some msg => some (.waitWrapped "error waiting for Route Table Association delete" msg)
      | none => none

/-- Modelled from the spec: the lake formation constant tableNameAllTables
("ALL_TABLES"), defined in a repository file that is not among the sources;
its exact value does not affect the stated properties. -/
def tableNameAllTables : String := "ALL_TABLES"

/-- Modelled from the spec: the table-type discriminator constant
tableTypeTable, defined in a repository file that is not among the sources. -/
def tableTypeTable : String := "TABLE"

/-- Modelled from the spec: the table-type discriminator constant
tableTypeTableWithColumns, defined in a repository file that is not among the
sources. -/
def tableTypeTableWithColumns : String := "TABLE_WITH_COLUMNS"

/-- The AWS SDK constant lakeformation.PermissionSelect. -/
def lakeformationPermissionSelect : String := "SELECT"

/-- lakeformation.DataLakePrincipal. -/
structure DataLakePrincipal where
  dataLakePrincipalIdentifier : Option String
deriving Repr, DecidableEq

/-- lakeformation.ColumnWildcard. -/
structure ColumnWildcard where
  excludedColumnNames : Option (List (Option String))
deriving Repr, DecidableEq

/-- lakeformation.TableResource; TableWildcard is an empty struct behind a
pointer, so only its nil-ness is represented. -/
structure TableResource where
  databaseName : Option String
  name : Option String
  tableWildcard : Option Unit
deriving Repr, DecidableEq

/-- lakeformation.TableWithColumnsResource. -/
structure TableWithColumnsResource where
  databaseName : Option String
  name : Option String
  columnNames : Option (List (Option String))
  columnWildcard : Option ColumnWildcard
deriving Repr, DecidableEq

/-- lakeformation.Resource; for the catalog, data location and database
members only nil-ness is ever read by the filters. -/
structure Resource where
  catalog : Option Unit
  dataLocation : Option Unit
  database : Option Unit
  table : Option TableResource
  tableWithColumns : Option TableWithColumnsResource
deriving Repr, DecidableEq

/-- lakeformation.PrincipalResourcePermissions; the Principal and Resource
pointers are dereferenced unconditionally by the filters, so they are plain
fields here. -/
structure PrincipalResourcePermissions where
  principal : DataLakePrincipal
  resource : Resource
  permissions : List (Option String)
  permissionsWithGrantOption : List (Option String)
deriving Repr, DecidableEq

/-- The fields of lakeformation.ListPermissionsInput read by filterPermissions. -/
structure ListPermissionsInput where
  principal : DataLakePrincipal
  resource : Resource
deriving Repr, DecidableEq

/-- Go aws.StringValueSlice: dereference each element, nil reading as "". -/
def awsStringValueSlice (l : List (Option String)) : List String :=
  l.map awsStringValue

/-- Go sort.Strings: sort a string slice in increasing lexicographic order. -/
def sortStrings (l : List String) : List String :=
  l.mergeSort

/-- stringSlicesEqualIgnoreOrder from lakeformation/filter.go. -/
def stringSlicesEqualIgnoreOrder (s1 s2 : List (Option String)) : Bool :=
  if s1.length != s2.length then false
  else
    let v1 := sortStrings (awsStringValueSlice s1)
    let v2 := sortStrings (awsStringValueSlice s2)
    v1 == v2

/-- The Go condition len(perms) > 0 && aws.StringValue(perms[0]) == PermissionSelect. -/
def permsFirstIsSelect : List (Option String) → Bool
  | [] => false
  | p0 :: _ => awsStringValue p0 == lakeformationPermissionSelect

/-- Name field read through the possibly-nil table pointer; the Go code
dereferences the pointer unconditionally (a nil table panics there), a nil
pointer is read as an absent field here. -/
def tableResName (t : Option TableResource) : Option String :=
  t.bind TableResource.name

/-- DatabaseName field read through the possibly-nil table pointer. -/
def tableResDatabaseName (t : Option TableResource) : Option String :=
  t.bind TableResource.databaseName

/-- TableWildcard field read through the possibly-nil table pointer. -/
def tableResTableWildcard (t : Option TableResource) : Option Unit :=
  t.bind TableResource.tableWildcard

/-- The per-element decision of the loop body of filterTablePermissions:
first the TableWithColumns block (column wildcard present, name matching the
table name, or ALL_TABLES under a table wildcard, with a leading SELECT
permission), then the Table block (same database, same name or both wildcard). -/
def tablePermKeep (table : Option TableResource) (perm : PrincipalResourcePermissions) : Bool :=
  (match perm.resource.tableWithColumns with
   | some twcPerm =>
     twcPerm.columnWildcard.isSome &&
       (awsStringValue twcPerm.name == awsStringValue (tableResName table) ||
         ((tableResTableWildcard table).isSome && awsStringValue twcPerm.name == tableNameAllTables)) &&
       (permsFirstIsSelect perm.permissions || permsFirstIsSelect perm.permissionsWithGrantOption)
   | none => false)
  ||
  (match perm.resource.table with
   | some t =>
     awsStringValue t.databaseName == awsStringValue (tableResDatabaseName table) &&
       (awsStringValue t.name == awsStringValue (tableResName table) ||
         (t.tableWildcard.isSome && (tableResTableWildcard table).isSome))
   | none => false)

/-- filterTablePermissions from lakeformation/filter.go. -/
def filterTablePermissions (principal : Option String) (table : Option TableResource) :
    List PrincipalResourcePermissions → List PrincipalResourcePermissions
  | [] => []
  | perm :: rest =>
    if awsStringValue principal != awsStringValue perm.principal.dataLakePrincipalIdentifier then
      filterTablePermissions principal table rest
    else if tablePermKeep table perm then
      perm :: filterTablePermissions principal table rest
    else
      filterTablePermissions principal table rest

/-- ExcludedColumnNames slice read for a stringSlicesEqualIgnoreOrder call:
a nil slice behaves as the empty slice there. -/
def optStringSlice (o : Option (List (Option String))) : List (Option String) :=
  o.getD []

/-- The per-element decision of the loop body of
filterTableWithColumnsPermissions: the explicit column-names block, then the
column-wildcard block, then the plain Table block. -/
def tableWithColumnsPermKeep (twc : Option TableResource)
    (columnNames excludedColumnNames : List (Option String)) (columnWildcard : Bool)
    (perm : PrincipalResourcePermissions) : Bool :=
  (match perm.resource.tableWithColumns with
   | some twcPerm =>
     (match twcPerm.columnNames with
      | some permColumnNames => stringSlicesEqualIgnoreOrder permColumnNames columnNames
      | none => false)
     ||
     (match twcPerm.columnWildcard with
      | some cw =>
        (columnWildcard || excludedColumnNames.length > 0) &&
          ((cw.excludedColumnNames == none && excludedColumnNames.length == 0) ||
            (excludedColumnNames.length > 0 &&
              stringSlicesEqualIgnoreOrder (optStringSlice cw.excludedColumnNames) excludedColumnNames))
      | none => false)
   | none => false)
  ||
  (match perm.resource.table with
   | some t => awsStringValue t.name == awsStringValue (tableResName twc)
   | none => false)

/-- filterTableWithColumnsPermissions from lakeformation/filter.go. -/
def filterTableWithColumnsPermissions (principal : Option String) (twc : Option TableResource)
    (columnNames excludedColumnNames : List (Option String)) (columnWildcard : Bool) :
    List PrincipalResourcePermissions → List PrincipalResourcePermissions
  | [] => []
  | perm :: rest =>
    if awsStringValue principal != awsStringValue perm.principal.dataLakePrincipalIdentifier then
      filterTableWithColumnsPermissions principal twc columnNames excludedColumnNames columnWildcard rest
    else if tableWithColumnsPermKeep twc columnNames excludedColumnNames columnWildcard perm then
      perm :: filterTableWithColumnsPermissions principal twc columnNames excludedColumnNames columnWildcard rest
    else
      filterTableWithColumnsPermissions principal twc columnNames excludedColumnNames columnWildcard rest

/-- filterCatalogPermissions from lakeformation/filter.go. -/
def filterCatalogPermissions (principal : Option String) :
    List PrincipalResourcePermissions → List PrincipalResourcePermissions
  | [] => []
  | perm :: rest =>
    if awsStringValue principal != awsStringValue perm.principal.dataLakePrincipalIdentifier then
      filterCatalogPermissions principal rest
    else if perm.resource.catalog.isSome then
      perm :: filterCatalogPermissions principal rest
    else
      filterCatalogPermissions principal rest

/-- filterDataLocationPermissions from lakeformation/filter.go. -/
def filterDataLocationPermissions (principal : Option String) :
    List PrincipalResourcePermissions → List PrincipalResourcePermissions
  | [] => []
  | perm :: rest =>
    if awsStringValue principal != awsStringValue perm.principal.dataLakePrincipalIdentifier then
      filterDataLocationPermissions principal rest
    else if perm.resource.dataLocation.isSome then
      perm :: filterDataLocationPermissions principal rest
    else
      filterDataLocationPermissions principal rest

/-- filterDatabasePermissions from lakeformation/filter.go. -/
def filterDatabasePermissions (principal : Option String) :
    List PrincipalResourcePermissions → List PrincipalResourcePermissions
  | [] => []
  | perm :: rest =>
    if awsStringValue principal != awsStringValue perm.principal.dataLakePrincipalIdentifier then
      filterDatabasePermissions principal rest
    else if perm.resource.database.isSome then
      perm :: filterDatabasePermissions principal rest
    else
      filterDatabasePermissions principal rest

/-- filterPermissions from lakeformation/filter.go. -/
def filterPermissions (input : ListPermissionsInput) (tableType : String)
    (columnNames excludedColumnNames : List (Option String)) (columnWildcard : Bool)
    (allPermissions : List PrincipalResourcePermissions) : List PrincipalResourcePermissions :=
  if input.resource.catalog.isSome then
    filterCatalogPermissions input.principal.dataLakePrincipalIdentifier allPermissions
  else if input.resource.dataLocation.isSome then
    filterDataLocationPermissions input.principal.dataLakePrincipalIdentifier allPermissions
  else if input.resource.database.isSome then
    filterDatabasePermissions input.principal.dataLakePrincipalIdentifier allPermissions
  else if tableType == tableTypeTableWithColumns then
    filterTableWithColumnsPermissions input.principal.dataLakePrincipalIdentifier
      input.resource.table columnNames excludedColumnNames columnWildcard allPermissions
  else if input.resource.table.isSome || tableType == tableTypeTable then
    filterTablePermissions input.principal.dataLakePrincipalIdentifier
      input.resource.table allPermissions
  else
    []

/-- ec2.RouteTableAssociation as far as the importer reads it. -/
structure RouteTableAssociation where
  subnetId : Option String
  gatewayId : Option String
  routeTableAssociationId : Option String
deriving Repr, DecidableEq

/-- ec2.RouteTable as far as the importer reads it. -/
structure RouteTable where
  associations : List RouteTableAssociation
deriving Repr, DecidableEq

/-- Outcome of the importer: the format error, a propagated lookup error, the
no-association error, or success carrying the resource ID and the attribute
values set on the resource data. -/
inductive ImportOutcome where
  | formatErr
  | lookupErr (e : ApiError)
  | notFoundErr
  | ok (resourceId routeTableId : String) (subnetId gatewayId : Option String)
deriving Repr, DecidableEq

/-- The loop of resourceAwsRouteTableAssociationImport: the first association
whose SubnetId (checked first) or GatewayId dereferences equal to the target
ID, together with whether the match was on SubnetId. -/
def findMatchingAssociation (targetID : String) :
    List RouteTableAssociation → Option (RouteTableAssociation × Bool)
  | [] => none
  | association :: rest =>
    if awsStringValue association.subnetId == targetID then some (association, true)
    else if awsStringValue association.gatewayId == targetID then some (association, false)
    else findMatchingAssociation targetID rest

/-- Splitting a character list at every occurrence of a separator character;
the result always has one more part than there are separators. -/
def splitOnChar (sep : Char) : List Char → List (List Char)
  | [] => [[]]
  | c :: cs =>
    match splitOnChar sep cs with
    | [] => if c == sep then [[], []] else [[c]]
    | p :: ps => if c == sep then [] :: p :: ps else (c :: p) :: ps

/-- Go strings.Split with a one-character separator. -/
def goStringsSplit (s : String) (sep : Char) : List String :=
  (splitOnChar sep s.data).map String.mk

/-- resourceAwsRouteTableAssociationImport from ec2/table_association.go, as a
pure function of the import identifier and of the result of the
findRouteTableByID lookup it performs on the second identifier part
(findRouteTableByID itself is not among the sources). After the loop the code
keeps the association ID only as a string, so a match whose
RouteTableAssociationId dereferences to "" falls into the not-found error. -/
def resourceAwsRouteTableAssociationImport (id : String)
    (lookup : Except ApiError RouteTable) : ImportOutcome :=
  match goStringsSplit id '/' with
  | [targetID, routeTableID] =>
    (match lookup with
     | .error e => .lookupErr e
     | .ok routeTable =>
       match findMatchingAssociation targetID routeTable.associations with
       | none => .notFoundErr
       | some (association, bySubnet) =>
         let associationID := awsStringValue association.routeTableAssociationId
         if associationID == "" then .notFoundErr
         else
           .ok associationID routeTableID
             (if bySubnet then some targetID else none)
             (if bySubnet then none else some targetID))
  | _ => .formatErr

/-- The Go absence condition of statusAccessPointLifeCycleState: output nil,
empty (or nil) access point list, or nil first element. -/
def describeAccessPointsAbsent : Option DescribeAccessPointsOutput → Bool
  | none => true
  | some o =>
    match o.accessPoints with
    | none => true
    | some [] => true
    | some (none :: _) => true
    | some (some _ :: _) => false

/-- The Go absence condition of statusFileSystemLifeCycleState: output nil,
empty (or nil) file system list, or nil first element. -/
def describeFileSystemsAbsent : Option DescribeFileSystemsOutput → Bool
  | none => true
  | some o =>
    match o.fileSystems with
    | none => true
    | some [] => true
    | some (none :: _) => true
    | some (some _ :: _) => false

theorem goStringsContains_empty_pattern (s : String) : goStringsContains s "" = true := by
  show charListHasSub [] s.data = true
  cases s.data with
  | nil => rfl
  | cons c cs => simp [charListHasSub, charListStartsWith]

/-- C1: the delete wait uses pending states "available" and "deleting" and
target state "destroyed", and whenever the endpoint is absent (the Describe
call fails with DBClusterNotFoundFault, or returns a response whose endpoint
list is empty or nil) DBClusterEndpointStateRefreshFunc returns the state
label "destroyed" with no error, so absence reaches the target. -/
theorem rds_delete_wait_absence_reaches_destroyed :
    (∀ timeout : Nat,
      (resourceAwsRDSClusterEndpointWaitForDestroyConf timeout).Pending = ["available", "deleting"] ∧
      (resourceAwsRDSClusterEndpointWaitForDestroyConf timeout).Target = ["destroyed"]) ∧
    (∀ call : DescribeDBClusterEndpointsResult, endpointAbsent call = true →
      DBClusterEndpointStateRefreshFunc call = (.emptyResp, "destroyed", none)) := by
  refine ⟨fun timeout => ⟨rfl, rfl⟩, ?_⟩
  rintro ⟨resp, err⟩ h
  simp only [endpointAbsent, Bool.or_eq_true] at h
  cases err with
  | some e =>
    simp only [DBClusterEndpointStateRefreshFunc, tfawserrErrMessageContains,
      goStringsContains_empty_pattern, Bool.and_true]
    by_cases hc : e.code == errCodeDBClusterNotFoundFault
    · simp [hc]
    · have hr : respNonNilWithNoEndpoints resp = true := by
        rcases h with h | h
        · exact absurd h hc
        · exact h
      simp [hc, hr]
  | none =>
    have hr : respNonNilWithNoEndpoints resp = true := by
      rcases h with h | h
      · cases h
      · exact h
    cases resp with
    | none => cases hr
    | some r =>
      rcases r with ⟨eps⟩
      rcases eps with _ | ⟨_ | ⟨a, t⟩⟩
      · rfl
      · rfl
      · simp [respNonNilWithNoEndpoints] at hr

/-- Closed instance of rds_delete_wait_absence_reaches_destroyed at a concrete
absent response. -/
theorem rds_delete_wait_absence_reaches_destroyed_witness :
    DBClusterEndpointStateRefreshFunc
        { resp := some { dbClusterEndpoints := some [] },
          err := some { code := "DBClusterNotFoundFault", message := "gone" } } =
      (.emptyResp, "destroyed", none) :=
  rds_delete_wait_absence_reaches_destroyed.2
    { resp := some { dbClusterEndpoints := some [] },
      err := some { code := "DBClusterNotFoundFault", message := "gone" } }
    (by decide)

/-- C2: the refresh closure returns a non-nil error exactly when the Describe
call returned a non-nil error whose code is not DBClusterNotFoundFault and the
error-case response is not a non-nil response with an empty endpoint list; in
that case the returned error wraps the original error and the state label is
the empty string. -/
theorem rds_refresh_error_surfaced :
    ∀ call : DescribeDBClusterEndpointsResult,
      ((DBClusterEndpointStateRefreshFunc call).2.2 ≠ none ↔
        (∃ e : ApiError, call.err = some e ∧ e.code ≠ errCodeDBClusterNotFoundFault ∧
          respNonNilWithNoEndpoints call.resp = false)) ∧
      (∀ e : ApiError, call.err = some e → e.code ≠ errCodeDBClusterNotFoundFault →
        respNonNilWithNoEndpoints call.resp = false →
        DBClusterEndpointStateRefreshFunc call = (.emptyResp, "", some (.onRefresh e))) := by
  rintro ⟨resp, err⟩
  constructor
  · cases err with
    | some e =>
      simp only [DBClusterEndpointStateRefreshFunc, tfawserrErrMessageContains,
        goStringsContains_empty_pattern, Bool.and_true]
      by_cases hc : e.code == errCodeDBClusterNotFoundFault
      · simp_all
      · by_cases hr : respNonNilWithNoEndpoints resp = true
        · simp_all
        · simp only [Bool.not_eq_true] at hr
          simp_all
    | none =>
      cases resp with
      | none => simp [DBClusterEndpointStateRefreshFunc]
      | some r =>
        rcases r with ⟨eps⟩
        rcases eps with _ | ⟨_ | ⟨a, t⟩⟩ <;> simp [DBClusterEndpointStateRefreshFunc]
  · rintro e rfl hc hr
    simp only [DBClusterEndpointStateRefreshFunc, tfawserrErrMessageContains,
      goStringsContains_empty_pattern, Bool.and_true]
    have hc' : (e.code == errCodeDBClusterNotFoundFault) = false := by
      simpa using hc
    simp [hc', hr]

/-- Closed instance of rds_refresh_error_surfaced at a concrete throttling
error with a nil response. -/
theorem rds_refresh_error_surfaced_witness :
    DBClusterEndpointStateRefreshFunc
        { resp := none, err := some { code := "Throttling", message := "rate exceeded" } } =
      (.emptyResp, "", some (.onRefresh { code := "Throttling", message := "rate exceeded" })) :=
  (rds_refresh_error_surfaced
      { resp := none, err := some { code := "Throttling", message := "rate exceeded" } }).2
    { code := "Throttling", message := "rate exceeded" } rfl (by decide) (by decide)

/-- C4: in both wait configurations built by the code the pending, target and
(empty, undeclared) failure label sets are pairwise disjoint, so no label
appears in more than one set. -/
theorem rds_wait_label_sets_disjoint :
    ∀ timeout : Nat,
      (resourceAwsRDSClusterEndpointWaitForDestroyConf timeout).Pending.Disjoint
        (resourceAwsRDSClusterEndpointWaitForDestroyConf timeout).Target ∧
      (resourceAwsRDSClusterEndpointWaitForAvailableConf timeout).Pending.Disjoint
        (resourceAwsRDSClusterEndpointWaitForAvailableConf timeout).Target ∧
      (resourceAwsRDSClusterEndpointWaitForDestroyConf timeout).toWaitSpec.failure = [] ∧
      (resourceAwsRDSClusterEndpointWaitForAvailableConf timeout).toWaitSpec.failure = [] := by
  intro timeout
  refine ⟨?_, ?_, rfl, rfl⟩ <;>
    · intro a ha hb
      simp only [resourceAwsRDSClusterEndpointWaitForDestroyConf,
        resourceAwsRDSClusterEndpointWaitForAvailableConf,
        List.mem_cons, List.mem_singleton, List.not_mem_nil] at ha hb
      rcases ha with rfl | ha
      · simp_all
      · simp_all

/-- C5: a wait whose refresh immediately reports a target label returns
success having slept zero nanoseconds, and the create and delete waiters of
the RDS cluster endpoint configure a Delay of 5 seconds. -/
theorem wait_immediate_target_no_sleep :
    (∀ (α : Type) (spec : WaitSpec) (refresh : Nat → RefreshResult α),
      (refresh 0).err = none → spec.target.contains (refresh 0).state = true →
      Wait refresh spec = (.success (refresh 0).snapshot, 0)) ∧
    (∀ timeout : Nat,
      (resourceAwsRDSClusterEndpointWaitForDestroyConf timeout).toWaitSpec.delay =
        5 * timeSecond ∧
      (resourceAwsRDSClusterEndpointWaitForAvailableConf timeout).toWaitSpec.delay =
        5 * timeSecond) := by
  constructor
  · intro α spec refresh herr htgt
    show waitLoop refresh spec (spec.timeout + 1) 0 0 = (.success (refresh 0).snapshot, 0)
    have hmem : (refresh 0).state ∈ spec.target := by simpa using htgt
    rw [waitLoop]
    simp [herr, hmem]
  · intro timeout
    exact ⟨rfl, rfl⟩

/-- Closed instance of wait_immediate_target_no_sleep: the create waiter with
a refresh that is available at once succeeds without sleeping. -/
theorem wait_immediate_target_no_sleep_witness :
    Wait (fun _ => ({ snapshot := some 0, state := "available", err := none } : RefreshResult Nat))
        resourceAwsRDSClusterEndpointCreateWaitConf.toWaitSpec =
      (.success (some 0), 0) :=
  wait_immediate_target_no_sleep.1 Nat
    resourceAwsRDSClusterEndpointCreateWaitConf.toWaitSpec
    (fun _ => { snapshot := some 0, state := "available", err := none })
    rfl (by decide)

/-- C6: both wait configurations have a non-empty target set, the Delay of 5
seconds is at least the MinTimeout of 3 seconds which is positive, the create
wait timeout equals 30 minutes and is positive, and the delete wait timeout is
positive whenever the duration handed to the destroy waiter is. -/
theorem rds_wait_conf_parameters :
    (resourceAwsRDSClusterEndpointCreateWaitConf.Target ≠ [] ∧
     resourceAwsRDSClusterEndpointCreateWaitConf.Timeout = 30 * timeMinute ∧
     0 < resourceAwsRDSClusterEndpointCreateWaitConf.Timeout ∧
     resourceAwsRDSClusterEndpointCreateWaitConf.Delay = 5 * timeSecond ∧
     resourceAwsRDSClusterEndpointCreateWaitConf.MinTimeout = 3 * timeSecond ∧
     resourceAwsRDSClusterEndpointCreateWaitConf.MinTimeout ≤
       resourceAwsRDSClusterEndpointCreateWaitConf.Delay ∧
     0 < resourceAwsRDSClusterEndpointCreateWaitConf.MinTimeout) ∧
    (∀ timeout : Nat, 0 < timeout →
      (resourceAwsRDSClusterEndpointWaitForDestroyConf timeout).Target ≠ [] ∧
      0 < (resourceAwsRDSClusterEndpointWaitForDestroyConf timeout).Timeout ∧
      (resourceAwsRDSClusterEndpointWaitForDestroyConf timeout).Delay = 5 * timeSecond ∧
      (resourceAwsRDSClusterEndpointWaitForDestroyConf timeout).MinTimeout = 3 * timeSecond ∧
      (resourceAwsRDSClusterEndpointWaitForDestroyConf timeout).MinTimeout ≤
        (resourceAwsRDSClusterEndpointWaitForDestroyConf timeout).Delay ∧
      0 < (resourceAwsRDSClusterEndpointWaitForDestroyConf timeout).MinTimeout) := by
  constructor
  · refine ⟨by decide, rfl, by decide, rfl, rfl, by decide, by decide⟩
  · intro timeout ht
    refine ⟨?_, ht, rfl, rfl, ?_, ?_⟩
    · show (["destroyed"] : List String) ≠ []
      decide
    · show 3 * timeSecond ≤ 5 * timeSecond
      decide
    · show 0 < 3 * timeSecond
      decide

/-- Closed instance of rds_wait_conf_parameters at a one-nanosecond delete
timeout. -/
theorem rds_wait_conf_parameters_witness :
    (resourceAwsRDSClusterEndpointWaitForDestroyConf 1).Target ≠ [] ∧
    0 < (resourceAwsRDSClusterEndpointWaitForDestroyConf 1).Timeout :=
  ⟨(rds_wait_conf_parameters.2 1 (by decide)).1,
   (rds_wait_conf_parameters.2 1 (by decide)).2.1⟩

/-- C3: each EFS status refresh returns the not-found sentinel (nil snapshot,
empty state label, nil error) exactly when the entity is absent — for the two
lifecycle-state functions when the describe output is nil, has an empty list
or a nil first element, and for statusBackupPolicy when the lookup error is a
tfresource not-found — and otherwise returns the fetched object with its
status string and nil error, or propagates the API error with nil snapshot
and empty label. -/
theorem efs_status_not_found_sentinel :
    ∀ (apCall : DescribeAccessPointsResult) (fsCall : DescribeFileSystemsResult)
      (bpRes : Except FindError BackupPolicy),
      (statusAccessPointLifeCycleState apCall = (none, "", none) ↔
        apCall.err = none ∧ describeAccessPointsAbsent apCall.output = true) ∧
      (∀ e : ApiError, apCall.err = some e →
        statusAccessPointLifeCycleState apCall = (none, "", some e)) ∧
      (∀ (o : DescribeAccessPointsOutput) (mt : AccessPoint) (rest : List (Option AccessPoint)),
        apCall.err = none → apCall.output = some o → o.accessPoints = some (some mt :: rest) →
        statusAccessPointLifeCycleState apCall =
          (some mt, awsStringValue mt.lifeCycleState, none)) ∧
      (statusFileSystemLifeCycleState fsCall = (none, "", none) ↔
        fsCall.err = none ∧ describeFileSystemsAbsent fsCall.output = true) ∧
      (∀ e : ApiError, fsCall.err = some e →
        statusFileSystemLifeCycleState fsCall = (none, "", some e)) ∧
      (∀ (o : DescribeFileSystemsOutput) (mt : FileSystem) (rest : List (Option FileSystem)),
        fsCall.err = none → fsCall.output = some o → o.fileSystems = some (some mt :: rest) →
        statusFileSystemLifeCycleState fsCall =
          (some mt, awsStringValue mt.lifeCycleState, none)) ∧
      (statusBackupPolicy bpRes = (none, "", none) ↔ bpRes = .error .notFound) ∧
      (∀ e : ApiError, bpRes = .error (.api e) →
        statusBackupPolicy bpRes = (none, "", some (.api e))) ∧
      (∀ b : BackupPolicy, bpRes = .ok b →
        statusBackupPolicy bpRes = (some b, awsStringValue b.status, none)) := by
  rintro ⟨apOut, apErr⟩ ⟨fsOut, fsErr⟩ bpRes
  refine ⟨?_, ?_, ?_, ?_, ?_, ?_, ?_, ?_, ?_⟩
  · cases apErr with
    | some e => simp [statusAccessPointLifeCycleState]
    | none =>
      rcases apOut with _ | ⟨aps⟩
      · simp [statusAccessPointLifeCycleState, describeAccessPointsAbsent]
      · rcases aps with _ | ⟨_ | ⟨hd, tl⟩⟩
        · simp [statusAccessPointLifeCycleState, describeAccessPointsAbsent]
        · simp [statusAccessPointLifeCycleState, describeAccessPointsAbsent]
        · rcases hd with _ | ⟨mt⟩ <;>
            simp [statusAccessPointLifeCycleState, describeAccessPointsAbsent]
  · rintro e rfl
    simp [statusAccessPointLifeCycleState]
  · rintro o mt rest rfl rfl h
    simp [statusAccessPointLifeCycleState, h]
  · cases fsErr with
    | some e => simp [statusFileSystemLifeCycleState]
    | none =>
      rcases fsOut with _ | ⟨fss⟩
      · simp [statusFileSystemLifeCycleState, describeFileSystemsAbsent]
      · rcases fss with _ | ⟨_ | ⟨hd, tl⟩⟩
        · simp [statusFileSystemLifeCycleState, describeFileSystemsAbsent]
        · simp [statusFileSystemLifeCycleState, describeFileSystemsAbsent]
        · rcases hd with _ | ⟨mt⟩ <;>
            simp [statusFileSystemLifeCycleState, describeFileSystemsAbsent]
  · rintro e rfl
    simp [statusFileSystemLifeCycleState]
  · rintro o mt rest rfl rfl h
    simp [statusFileSystemLifeCycleState, h]
  · rcases bpRes with e | b
    · rcases e with _ | ⟨e⟩ <;> simp [statusBackupPolicy, tfresourceNotFound]
    · simp [statusBackupPolicy]
  · rintro e rfl
    simp [statusBackupPolicy, tfresourceNotFound]
  · rintro b rfl
    simp [statusBackupPolicy]

/-- Closed instance of efs_status_not_found_sentinel: a not-found backup
policy lookup yields the sentinel. -/
theorem efs_status_not_found_sentinel_witness :
    statusBackupPolicy (.error .notFound) = (none, "", none) :=
  (efs_status_not_found_sentinel { output := none, err := none }
      { output := none, err := none } (.error .notFound)).2.2.2.2.2.2.1.mpr rfl

/-- C7: both delete paths treat an API-reported not-found as success: the
event bus delete returns nil on ResourceNotFoundException and the route table
association delete returns nil on InvalidAssociationID.NotFound, and in
general each returns nil exactly on not-found or on a fully error-free run,
so a transient not-found is indistinguishable from a true deletion. -/
theorem delete_not_found_is_success :
    (∀ (m : String) (err : Option ApiError),
      resourceAwsCloudWatchEventBusDelete
          (some { code := errCodeResourceNotFoundException, message := m }) = none ∧
      (resourceAwsCloudWatchEventBusDelete err = none ↔
        tfawserrErrMessageContains err errCodeResourceNotFoundException "" = true ∨
          err = none)) ∧
    (∀ (m : String) (waitErr : Option String) (err : Option ApiError),
      ec2RouteTableAssociationDelete
          (some { code := errCodeInvalidAssociationIDNotFound, message := m }) waitErr = none ∧
      (ec2RouteTableAssociationDelete err waitErr = none ↔
        tfawserrErrCodeEquals err errCodeInvalidAssociationIDNotFound = true ∨
          (err = none ∧ waitErr = none))) := by
  constructor
  · intro m err
    constructor
    · simp [resourceAwsCloudWatchEventBusDelete, tfawserrErrMessageContains,
        goStringsContains_empty_pattern]
    · cases err with
      | none => simp [resourceAwsCloudWatchEventBusDelete, tfawserrErrMessageContains]
      | some e =>
        by_cases hc : tfawserrErrMessageContains (some e) errCodeResourceNotFoundException "" = true
        · simp [resourceAwsCloudWatchEventBusDelete, hc]
        · simp only [Bool.not_eq_true] at hc
          simp [resourceAwsCloudWatchEventBusDelete, hc]
  · intro m waitErr err
    constructor
    · simp [ec2RouteTableAssociationDelete, tfawserrErrCodeEquals]
    · cases err with
      | none =>
        cases waitErr with
        | none => simp [ec2RouteTableAssociationDelete, tfawserrErrCodeEquals]
        | some w => simp [ec2RouteTableAssociationDelete, tfawserrErrCodeEquals]
      | some e =>
        by_cases hc : tfawserrErrCodeEquals (some e) errCodeInvalidAssociationIDNotFound = true
        · simp [ec2RouteTableAssociationDelete, hc]
        · simp only [Bool.not_eq_true] at hc
          cases waitErr with
          | none => simp [ec2RouteTableAssociationDelete, hc]
          | some w => simp [ec2RouteTableAssociationDelete, hc]

theorem filterCatalogPermissions_sublist (principal : Option String)
    (l : List PrincipalResourcePermissions) :
    (filterCatalogPermissions principal l).Sublist l := by
  induction l with
  | nil => simp [filterCatalogPermissions]
  | cons perm rest ih =>
    rw [filterCatalogPermissions]
    split
    · exact ih.cons _
    · split
      · exact ih.cons₂ _
      · exact ih.cons _

theorem filterCatalogPermissions_principal (principal : Option String)
    (l : List PrincipalResourcePermissions) :
    ∀ p ∈ filterCatalogPermissions principal l,
      awsStringValue p.principal.dataLakePrincipalIdentifier = awsStringValue principal := by
  induction l with
  | nil => simp [filterCatalogPermissions]
  | cons perm rest ih =>
    rw [filterCatalogPermissions]
    split
    · exact ih
    · rename_i hne
      simp only [bne_iff_ne, ne_eq, not_not] at hne
      split
      · intro p hp
        rcases List.mem_cons.mp hp with rfl | hp'
        · exact hne.symm
        · exact ih p hp'
      · exact ih

theorem filterDataLocationPermissions_sublist (principal : Option String)
    (l : List PrincipalResourcePermissions) :
    (filterDataLocationPermissions principal l).Sublist l := by
  induction l with
  | nil => simp [filterDataLocationPermissions]
  | cons perm rest ih =>
    rw [filterDataLocationPermissions]
    split
    · exact ih.cons _
    · split
      · exact ih.cons₂ _
      · exact ih.cons _

theorem filterDataLocationPermissions_principal (principal : Option String)
    (l : List PrincipalResourcePermissions) :
    ∀ p ∈ filterDataLocationPermissions principal l,
      awsStringValue p.principal.dataLakePrincipalIdentifier = awsStringValue principal := by
  induction l with
  | nil => simp [filterDataLocationPermissions]
  | cons perm rest ih =>
    rw [filterDataLocationPermissions]
    split
    · exact ih
    · rename_i hne
      simp only [bne_iff_ne, ne_eq, not_not] at hne
      split
      · intro p hp
        rcases List.mem_cons.mp hp with rfl | hp'
        · exact hne.symm
        · exact ih p hp'
      · exact ih

theorem filterDatabasePermissions_sublist (principal : Option String)
    (l : List PrincipalResourcePermissions) :
    (filterDatabasePermissions principal l).Sublist l := by
  induction l with
  | nil => simp [filterDatabasePermissions]
  | cons perm rest ih =>
    rw [filterDatabasePermissions]
    split
    · exact ih.cons _
    · split
      · exact ih.cons₂ _
      · exact ih.cons _

theorem filterDatabasePermissions_principal (principal : Option String)
    (l : List PrincipalResourcePermissions) :
    ∀ p ∈ filterDatabasePermissions principal l,
      awsStringValue p.principal.dataLakePrincipalIdentifier = awsStringValue principal := by
  induction l with
  | nil => simp [filterDatabasePermissions]
  | cons perm rest ih =>
    rw [filterDatabasePermissions]
    split
    · exact ih
    · rename_i hne
      simp only [bne_iff_ne, ne_eq, not_not] at hne
      split
      · intro p hp
        rcases List.mem_cons.mp hp with rfl | hp'
        · exact hne.symm
        · exact ih p hp'
      · exact ih

theorem filterTablePermissions_sublist (principal : Option String) (table : Option TableResource)
    (l : List PrincipalResourcePermissions) :
    (filterTablePermissions principal table l).Sublist l := by
  induction l with
  | nil => simp [filterTablePermissions]
  | cons perm rest ih =>
    rw [filterTablePermissions]
    split
    · exact ih.cons _
    · split
      · exact ih.cons₂ _
      · exact ih.cons _

theorem filterTablePermissions_principal (principal : Option String) (table : Option TableResource)
    (l : List PrincipalResourcePermissions) :
    ∀ p ∈ filterTablePermissions principal table l,
      awsStringValue p.principal.dataLakePrincipalIdentifier = awsStringValue principal := by
  induction l with
  | nil => simp [filterTablePermissions]
  | cons perm rest ih =>
    rw [filterTablePermissions]
    split
    · exact ih
    · rename_i hne
      simp only [bne_iff_ne, ne_eq, not_not] at hne
      split
      · intro p hp
        rcases List.mem_cons.mp hp with rfl | hp'
        · exact hne.symm
        · exact ih p hp'
      · exact ih

theorem filterTableWithColumnsPermissions_sublist (principal : Option String)
    (twc : Option TableResource) (columnNames excludedColumnNames : List (Option String))
    (columnWildcard : Bool) (l : List PrincipalResourcePermissions) :
    (filterTableWithColumnsPermissions principal twc columnNames excludedColumnNames
      columnWildcard l).Sublist l := by
  induction l with
  | nil => simp [filterTableWithColumnsPermissions]
  | cons perm rest ih =>
    rw [filterTableWithColumnsPermissions]
    split
    · exact ih.cons _
    · split
      · exact ih.cons₂ _
      · exact ih.cons _

theorem filterTableWithColumnsPermissions_principal (principal : Option String)
    (twc : Option TableResource) (columnNames excludedColumnNames : List (Option String))
    (columnWildcard : Bool) (l : List PrincipalResourcePermissions) :
    ∀ p ∈ filterTableWithColumnsPermissions principal twc columnNames excludedColumnNames
        columnWildcard l,
      awsStringValue p.principal.dataLakePrincipalIdentifier = awsStringValue principal := by
  induction l with
  | nil => simp [filterTableWithColumnsPermissions]
  | cons perm rest ih =>
    rw [filterTableWithColumnsPermissions]
    split
    · exact ih
    · rename_i hne
      simp only [bne_iff_ne, ne_eq, not_not] at hne
      split
      · intro p hp
        rcases List.mem_cons.mp hp with rfl | hp'
        · exact hne.symm
        · exact ih p hp'
      · exact ih

/-- C8: through every branch, filterPermissions returns a subsequence of its
allPermissions argument (so elements keep their relative order and none is
synthesized or duplicated) all of whose elements have a principal identifier
string-equal to the input principal. -/
theorem filterPermissions_subsequence_of_matching_principal :
    ∀ (input : ListPermissionsInput) (tableType : String)
      (columnNames excludedColumnNames : List (Option String)) (columnWildcard : Bool)
      (allPermissions : List PrincipalResourcePermissions),
      (filterPermissions input tableType columnNames excludedColumnNames columnWildcard
        allPermissions).Sublist allPermissions ∧
      ∀ p ∈ filterPermissions input tableType columnNames excludedColumnNames columnWildcard
          allPermissions,
        awsStringValue p.principal.dataLakePrincipalIdentifier =
          awsStringValue input.principal.dataLakePrincipalIdentifier := by
  intro input tableType columnNames excludedColumnNames columnWildcard allPermissions
  unfold filterPermissions
  split_ifs with h1 h2 h3 h4 h5
  · exact ⟨filterCatalogPermissions_sublist _ _, filterCatalogPermissions_principal _ _⟩
  · exact ⟨filterDataLocationPermissions_sublist _ _, filterDataLocationPermissions_principal _ _⟩
  · exact ⟨filterDatabasePermissions_sublist _ _, filterDatabasePermissions_principal _ _⟩
  · exact ⟨filterTableWithColumnsPermissions_sublist _ _ _ _ _ _,
      filterTableWithColumnsPermissions_principal _ _ _ _ _ _⟩
  · exact ⟨filterTablePermissions_sublist _ _ _, filterTablePermissions_principal _ _ _⟩
  · exact ⟨List.nil_sublist _, by simp⟩

/-- Closed instance of filterPermissions_subsequence_of_matching_principal on
a one-element catalog permission list. -/
theorem filterPermissions_subsequence_witness :
    (filterPermissions
        { principal := { dataLakePrincipalIdentifier := some "alice" },
          resource := { catalog := some (), dataLocation := none, database := none,
                        table := none, tableWithColumns := none } }
        "" [] [] false
        [{ principal := { dataLakePrincipalIdentifier := some "alice" },
           resource := { catalog := some (), dataLocation := none, database := none,
                         table := none, tableWithColumns := none },
           permissions := [], permissionsWithGrantOption := [] }]).Sublist
      [{ principal := { dataLakePrincipalIdentifier := some "alice" },
         resource := { catalog := some (), dataLocation := none, database := none,
                       table := none, tableWithColumns := none },
         permissions := [], permissionsWithGrantOption := [] }] ∧
    awsStringValue
        ({ principal := { dataLakePrincipalIdentifier := some "alice" },
           resource := { catalog := some (), dataLocation := none, database := none,
                         table := none, tableWithColumns := none },
           permissions := [], permissionsWithGrantOption := [] } :
          PrincipalResourcePermissions).principal.dataLakePrincipalIdentifier =
      awsStringValue
        ({ principal := { dataLakePrincipalIdentifier := some "alice" },
           resource := { catalog := some (), dataLocation := none, database := none,
                         table := none, tableWithColumns := none } } :
          ListPermissionsInput).principal.dataLakePrincipalIdentifier :=
  ⟨(filterPermissions_subsequence_of_matching_principal
      { principal := { dataLakePrincipalIdentifier := some "alice" },
        resource := { catalog := some (), dataLocation := none, database := none,
                      table := none, tableWithColumns := none } }
      "" [] [] false
      [{ principal := { dataLakePrincipalIdentifier := some "alice" },
         resource := { catalog := some (), dataLocation := none, database := none,
                       table := none, tableWithColumns := none },
         permissions := [], permissionsWithGrantOption := [] }]).1,
   (filterPermissions_subsequence_of_matching_principal
      { principal := { dataLakePrincipalIdentifier := some "alice" },
        resource := { catalog := some (), dataLocation := none, database := none,
                      table := none, tableWithColumns := none } }
      "" [] [] false
      [{ principal := { dataLakePrincipalIdentifier := some "alice" },
         resource := { catalog := some (), dataLocation := none, database := none,
                       table := none, tableWithColumns := none },
         permissions := [], permissionsWithGrantOption := [] }]).2
     { principal := { dataLakePrincipalIdentifier := some "alice" },
       resource := { catalog := some (), dataLocation := none, database := none,
                     table := none, tableWithColumns := none },
       permissions := [], permissionsWithGrantOption := [] }
     (by decide)⟩

theorem sortStrings_perm (l : List String) : (sortStrings l).Perm l :=
  List.mergeSort_perm l _

theorem sortStrings_sorted (l : List String) : List.Sorted (· ≤ ·) (sortStrings l) :=
  List.sorted_mergeSort' l

theorem sortStrings_eq_iff (l1 l2 : List String) :
    sortStrings l1 = sortStrings l2 ↔ l1.Perm l2 := by
  constructor
  · intro h
    exact (sortStrings_perm l1).symm.trans (h ▸ sortStrings_perm l2)
  · intro h
    exact List.eq_of_perm_of_sorted
      ((sortStrings_perm l1).trans (h.trans (sortStrings_perm l2).symm))
      (sortStrings_sorted l1) (sortStrings_sorted l2)

theorem stringSlicesEqualIgnoreOrder_iff (s1 s2 : List (Option String)) :
    stringSlicesEqualIgnoreOrder s1 s2 = true ↔
      s1.length = s2.length ∧ (awsStringValueSlice s1).Perm (awsStringValueSlice s2) := by
  unfold stringSlicesEqualIgnoreOrder
  by_cases h : s1.length = s2.length
  · simp [h, bne_iff_ne, sortStrings_eq_iff]
  · simp [h, bne_iff_ne]

/-- C9: stringSlicesEqualIgnoreOrder is true exactly when the two slices have
equal length and equal multisets of dereferenced values (nil reading as ""),
and it is therefore symmetric and invariant under permutation of either
argument. -/
theorem stringSlicesEqualIgnoreOrder_multiset_characterisation :
    ∀ s1 s2 : List (Option String),
      (stringSlicesEqualIgnoreOrder s1 s2 = true ↔
        s1.length = s2.length ∧
          (↑(awsStringValueSlice s1) : Multiset String) = ↑(awsStringValueSlice s2)) ∧
      stringSlicesEqualIgnoreOrder s1 s2 = stringSlicesEqualIgnoreOrder s2 s1 ∧
      (∀ t1 t2 : List (Option String), s1.Perm t1 → s2.Perm t2 →
        stringSlicesEqualIgnoreOrder s1 s2 = stringSlicesEqualIgnoreOrder t1 t2) := by
  intro s1 s2
  refine ⟨?_, ?_, ?_⟩
  · rw [stringSlicesEqualIgnoreOrder_iff]
    exact and_congr_right fun _ => (Multiset.coe_eq_coe).symm
  · rw [Bool.eq_iff_iff, stringSlicesEqualIgnoreOrder_iff, stringSlicesEqualIgnoreOrder_iff]
    constructor
    · rintro ⟨hl, hp⟩; exact ⟨hl.symm, hp.symm⟩
    · rintro ⟨hl, hp⟩; exact ⟨hl.symm, hp.symm⟩
  · intro t1 t2 h1 h2
    rw [Bool.eq_iff_iff, stringSlicesEqualIgnoreOrder_iff, stringSlicesEqualIgnoreOrder_iff]
    constructor
    · rintro ⟨hl, hp⟩
      refine ⟨by rw [← h1.length_eq, ← h2.length_eq]; exact hl, ?_⟩
      exact ((h1.map awsStringValue).symm.trans hp).trans (h2.map awsStringValue)
    · rintro ⟨hl, hp⟩
      refine ⟨by rw [h1.length_eq, h2.length_eq]; exact hl, ?_⟩
      exact ((h1.map awsStringValue).trans hp).trans (h2.map awsStringValue).symm

/-- Closed instance of stringSlicesEqualIgnoreOrder_multiset_characterisation:
permuting the first argument does not change the result. -/
theorem stringSlicesEqualIgnoreOrder_witness :
    stringSlicesEqualIgnoreOrder [some "a", none] [] =
      stringSlicesEqualIgnoreOrder [none, some "a"] [] :=
  (stringSlicesEqualIgnoreOrder_multiset_characterisation [some "a", none] []).2.2
    [none, some "a"] [] (by decide) (by decide)

/-- C10 counterexample: the ID "subnet-1/rtb-1" splits into two parts, the
lookup succeeds, and an association of the table has SubnetId equal to the
first part, yet the importer returns the no-association error (and not a
success), because the matching association's RouteTableAssociationId is nil:
an error case the claim does not admit. -/
theorem route_table_association_import_counterexample :
    (goStringsSplit "subnet-1/rtb-1" '/').length = 2 ∧
    awsStringValue
        ({ subnetId := some "subnet-1"
           gatewayId := none
           routeTableAssociationId := none } : RouteTableAssociation).subnetId = "subnet-1" ∧
    resourceAwsRouteTableAssociationImport "subnet-1/rtb-1"
        (.ok { associations := [{ subnetId := some "subnet-1"
                                  gatewayId := none
                                  routeTableAssociationId := none }] }) = .notFoundErr := by
  refine ⟨rfl, rfl, rfl⟩

/-- C10 (amended): the importer errors exactly when the ID does not split on
"/" into two parts, or the route table lookup fails, or no association
matches the first part, or the first matching association carries an empty
(nil) association ID; otherwise it returns the association ID of the first
matching association (SubnetId checked before GatewayId within each element),
the second part as route_table_id, and exactly one of subnet_id or gateway_id
according to which field matched. -/
theorem route_table_association_import_characterisation :
    ∀ (id : String) (lookup : Except ApiError RouteTable),
      ((goStringsSplit id '/').length ≠ 2 →
        resourceAwsRouteTableAssociationImport id lookup = .formatErr) ∧
      (∀ targetID routeTableID : String, goStringsSplit id '/' = [targetID, routeTableID] →
        (∀ e : ApiError, lookup = .error e →
          resourceAwsRouteTableAssociationImport id lookup = .lookupErr e) ∧
        (∀ rt : RouteTable, lookup = .ok rt →
          (findMatchingAssociation targetID rt.associations = none →
            resourceAwsRouteTableAssociationImport id lookup = .notFoundErr) ∧
          (∀ (a : RouteTableAssociation) (bySubnet : Bool),
            findMatchingAssociation targetID rt.associations = some (a, bySubnet) →
            (awsStringValue a.routeTableAssociationId = "" →
              resourceAwsRouteTableAssociationImport id lookup = .notFoundErr) ∧
            (awsStringValue a.routeTableAssociationId ≠ "" →
              resourceAwsRouteTableAssociationImport id lookup =
                .ok (awsStringValue a.routeTableAssociationId) routeTableID
                  (if bySubnet then some targetID else none)
                  (if bySubnet then none else some targetID))))) ∧
      (∀ (targetID : String) (l : List RouteTableAssociation),
        (findMatchingAssociation targetID l = none ↔
          ∀ a ∈ l, awsStringValue a.subnetId ≠ targetID ∧
            awsStringValue a.gatewayId ≠ targetID) ∧
        (∀ (a : RouteTableAssociation) (bySubnet : Bool),
          findMatchingAssociation targetID l = some (a, bySubnet) →
          a ∈ l ∧
          (bySubnet = true → awsStringValue a.subnetId = targetID) ∧
          (bySubnet = false → awsStringValue a.gatewayId = targetID ∧
            awsStringValue a.subnetId ≠ targetID))) := by
  intro id lookup
  refine ⟨?_, ?_, ?_⟩
  · intro hlen
    unfold resourceAwsRouteTableAssociationImport
    rcases hsplit : goStringsSplit id '/' with _ | ⟨x, _ | ⟨y, _ | ⟨z, rest⟩⟩⟩
    · rfl
    · rfl
    · rw [hsplit] at hlen
      simp at hlen
    · rfl
  · rintro targetID routeTableID hsplit
    refine ⟨?_, ?_⟩
    · rintro e rfl
      unfold resourceAwsRouteTableAssociationImport
      rw [hsplit]
    · rintro rt rfl
      refine ⟨?_, ?_⟩
      · intro hfind
        unfold resourceAwsRouteTableAssociationImport
        rw [hsplit]
        simp [hfind]
      · rintro a bySubnet hfind
        refine ⟨?_, ?_⟩
        · intro hid
          unfold resourceAwsRouteTableAssociationImport
          rw [hsplit]
          simp [hfind, hid]
        · intro hid
          have h' : (awsStringValue a.routeTableAssociationId == "") = false := by
            simpa using hid
          unfold resourceAwsRouteTableAssociationImport
          rw [hsplit]
          simp [hfind, h']
  · intro targetID l
    refine ⟨?_, ?_⟩
    · induction l with
      | nil => simp [findMatchingAssociation]
      | cons x l ih =>
        rw [findMatchingAssociation]
        split
        · rename_i hs
          simp only [beq_iff_eq] at hs
          constructor
          · intro hc
            exact absurd hc (by simp)
          · intro hall
            exact absurd hs (hall x (List.mem_cons_self x l)).1
        · split
          · rename_i hs hg
            simp only [beq_iff_eq] at hg
            constructor
            · intro hc
              exact absurd hc (by simp)
            · intro hall
              exact absurd hg (hall x (List.mem_cons_self x l)).2
          · rename_i hs hg
            simp only [beq_iff_eq] at hs hg
            rw [ih]
            constructor
            · intro h
              intro a ha
              rcases List.mem_cons.mp ha with rfl | ha'
              · exact ⟨hs, hg⟩
              · exact h a ha'
            · intro h a ha
              exact h a (List.mem_cons_of_mem x ha)
    · induction l with
      | nil => intro a b h; simp [findMatchingAssociation] at h
      | cons x l ih =>
        intro a b h
        rw [findMatchingAssociation] at h
        revert h
        split
        · rename_i hs
          simp only [beq_iff_eq] at hs
          intro h
          simp only [Option.some.injEq, Prod.mk.injEq] at h
          obtain ⟨rfl, rfl⟩ := h
          refine ⟨List.mem_cons_self x l, fun _ => hs, fun hb => nomatch hb⟩
        · split
          · rename_i hs hg
            simp only [beq_iff_eq] at hs hg
            intro h
            simp only [Option.some.injEq, Prod.mk.injEq] at h
            obtain ⟨rfl, rfl⟩ := h
            exact ⟨List.mem_cons_self x l, fun hb => Bool.noConfusion hb, fun _ => ⟨hg, hs⟩⟩
          · intro h
            obtain ⟨hm, h1, h2⟩ := ih a b h
            exact ⟨List.mem_cons_of_mem x hm, h1, h2⟩

/-- Closed instance of route_table_association_import_characterisation at a
successful subnet import. -/
theorem route_table_association_import_characterisation_witness :
    resourceAwsRouteTableAssociationImport "subnet-9/rtb-9"
        (.ok { associations := [{ subnetId := some "subnet-9"
                                  gatewayId := none
                                  routeTableAssociationId := some "rtbassoc-1" }] }) =
      .ok "rtbassoc-1" "rtb-9" (some "subnet-9") none := by
  have h := route_table_association_import_characterisation "subnet-9/rtb-9"
      (.ok { associations := [{ subnetId := some "subnet-9"
                                gatewayId := none
                                routeTableAssociationId := some "rtbassoc-1" }] })
  exact ((((h.2.1 "subnet-9" "rtb-9" rfl).2 _ rfl).2 _ true rfl).2 (by decide))

/-- Closed instance of rds_wait_label_sets_disjoint: the delete waiter
declares no failure states. -/
theorem rds_wait_label_sets_disjoint_witness :
    (resourceAwsRDSClusterEndpointWaitForDestroyConf 1).toWaitSpec.failure = [] :=
  (rds_wait_label_sets_disjoint 1).2.2.1

/-- Closed instance of delete_not_found_is_success: the event bus delete
returns nil on a concrete ResourceNotFoundException. -/
theorem delete_not_found_is_success_witness :
    resourceAwsCloudWatchEventBusDelete
        (some { code := errCodeResourceNotFoundException, message := "missing" }) = none :=
  (delete_not_found_is_success.1 "missing" none).1
